import Mathlib

/-!
Verification of the kratos-readonly-traits admission webhook (`src/main.go`).

The Go program decodes JSON into `map[string]interface{}`; its values are
JSON scalars (null, bool, float64, string) and composites (`[]interface{}`,
`map[string]interface{}`).  We embed such dynamic values as `Val`.  Go maps
are embedded as association lists; a missing key reads as the nil interface,
i.e. `Val.null`.

Go's `==`/`!=` on `interface{}` is embedded by `goEq`: it returns
`Option Bool`, with `none` standing for the runtime panic raised when two
interfaces of the same uncomparable dynamic type (slice, map) are compared.
Fallible computations that may panic likewise return `Option`.
-/

/-- A dynamic JSON value as decoded by Go's `encoding/json` into
`interface{}`: nil, bool, float64, string, `[]interface{}`,
`map[string]interface{}` (object fields kept as an association list). -/
inductive Val where
  | null : Val
  | bool (b : Bool) : Val
  | num (q : ℚ) : Val
  | str (s : String) : Val
  | arr (xs : List Val) : Val
  | obj (fields : List (String × Val)) : Val

/-- Association-list key lookup, the embedding of Go's two-valued map
index `v, ok := m[k]`: `none` when the key is absent. -/
def lookupKey (m : List (String × Val)) (k : String) : Option Val :=
  match m with
  | [] => none
  | (k', v) :: rest => if k' = k then some v else lookupKey rest k

/-- Go's one-valued map index `m[k]`: a missing key yields the zero value
of `interface{}`, the nil interface, embedded as `Val.null`. -/
def goIndex (m : List (String × Val)) (k : String) : Val :=
  match lookupKey m k with
  | some v => v
  | none => Val.null

/-- Go interface equality `x == y` on decoded JSON values.  Two interfaces
are equal iff their dynamic types are identical and the dynamic values are
equal; comparing two values of the same uncomparable dynamic type
(`[]interface{}`, `map[string]interface{}`) panics, embedded as `none`.
Values of different dynamic types (or one side nil) compare unequal
without panicking. -/
def goEq : Val → Val → Option Bool
  | Val.null, Val.null => some true
  | Val.bool a, Val.bool b => some (a == b)
  | Val.num a, Val.num b => some (a == b)
  | Val.str a, Val.str b => some (a == b)
  | Val.arr _, Val.arr _ => none
  | Val.obj _, Val.obj _ => none
  | _, _ => some false

/-- The loop-body condition of `webhookHandler` (main.go line 107):
`payload.NewTraits[trait] != nil && payload.NewTraits[trait] != payload.OldTraits[trait]`.
`some true` means a violation is recorded for the trait, `some false` means
it is skipped, `none` means the comparison panics.  The `!= nil` conjunct
short-circuits, so a nil (absent or JSON-null) new value never panics. -/
def traitViolates (oldT newT : List (String × Val)) (t : String) : Option Bool :=
  match goIndex newT t with
  | Val.null => some false
  | nv =>
    match goEq nv (goIndex oldT t) with
    | none => none
    | some b => some (!b)

/-- The violation-collecting loop of `webhookHandler` (main.go lines
106-120), abstracted over one iteration order of the `immutableTraits`
map: for each immutable trait whose condition holds, the trait is recorded
(we keep the trait name; the message construction is `formatViolation`).
A panic in any iteration aborts the whole handler, embedded as `none`. -/
def checkImmutability (immutable : List String) (oldT newT : List (String × Val)) :
    Option (List String) :=
  match immutable with
  | [] => some []
  | t :: rest =>
    match traitViolates oldT newT t, checkImmutability rest oldT newT with
    | some true, some vs => some (t :: vs)
    | some false, some vs => some vs
    | _, _ => none

/-- The custom schema annotation key (main.go line 76). -/
def annotationKey : String := "zolfa.dev/kratos-readonly"

/-- The per-trait test of `fetchSchemaImmutableTraits` (main.go line 76):
`if immutable, ok := props["zolfa.dev/kratos-readonly"]; ok && immutable.(bool)`.
The single-valued type assertion `immutable.(bool)` panics when the
annotation value's dynamic type is not `bool` (a JSON null stores a nil
interface, which also fails the assertion); `&&` short-circuits, so an
absent annotation never panics. -/
def traitImmutable (props : List (String × Val)) : Option Bool :=
  match lookupKey props annotationKey with
  | none => some false
  | some (Val.bool b) => some b
  | some _ => none

/-- The schema-processing loop of `fetchSchemaImmutableTraits` (main.go
lines 74-79), taken after the registry response decoded into
`KratosSchema`: `schema.Properties.Traits.Properties` becomes an
association list of trait name to metadata object, in one iteration
order of the Go map.  A panicking type assertion aborts the call (`none`). -/
def fetchSchemaImmutableTraits (traits : List (String × List (String × Val))) :
    Option (List String) :=
  match traits with
  | [] => some []
  | (t, props) :: rest =>
    match traitImmutable props, fetchSchemaImmutableTraits rest with
    | some true, some ts => some (t :: ts)
    | some false, some ts => some ts
    | _, _ => none

/-- Go struct `WebhookResponseNestedMessage` (main.go lines 35-39). -/
/- The Go field `Type` cannot be a Lean field name (`Type` is a keyword),
so it is named after its JSON tag `type`. -/
structure WebhookResponseNestedMessage where
  ID : Int
  Text : String
  type : String
deriving DecidableEq

/-- Go struct `WebhookResponseTopMessage` (main.go lines 30-33). -/
structure WebhookResponseTopMessage where
  InstancePtr : String
  Messages : List WebhookResponseNestedMessage
deriving DecidableEq

/-- Go struct `WebhookResponse` (main.go lines 26-28). -/
structure WebhookResponse where
  Messages : List WebhookResponseTopMessage
deriving DecidableEq

/-- Go struct `WebhookRequest` (main.go lines 20-24); the trait maps are
decoded `map[string]any` values, embedded as association lists. -/
structure WebhookRequest where
  SchemaID : String
  OldTraits : List (String × Val)
  NewTraits : List (String × Val)

/-- The message container appended for one violated trait (main.go lines
108-118). -/
def formatViolation (trait : String) : WebhookResponseTopMessage :=
  { InstancePtr := "#/traits/" ++ trait,
    Messages := [{ ID := 1377, Text := "Element is read-only.", type := "conflict" }] }

/-- One observable effect of the handler on its `http.ResponseWriter`:
a `WriteHeader(code)` call, the plain-text body written by `http.Error`,
or the JSON body written by `json.NewEncoder(w).Encode(response)`. -/
inductive WriteAction where
  | status (code : Nat) : WriteAction
  | textBody (s : String) : WriteAction
  | jsonBody (r : WebhookResponse) : WriteAction
deriving DecidableEq

/-- The handler `webhookHandler` (main.go lines 86-129) as the sequence of writes it
performs on the response writer.  The JSON decode of the request body and
the network fetch are the handler's two effectful collaborators: `decoded`
is the outcome of `json.NewDecoder(r.Body).Decode(&payload)` (`none` on
decode error) and `schemaResult` the outcome of
`fetchSchemaImmutableTraits(payload.SchemaID)` per schema id.  `http.Error`
writes the status header and then the message.  A panic while checking
traits aborts the handler before any write (`none` overall).  Note the
conflict branch (lines 122-127) does not return, so line 128 writes a
second, 200 status header after the 409 one. -/
def webhookHandler (decoded : Option WebhookRequest)
    (schemaResult : String → Except String (List String)) :
    Option (List WriteAction) :=
  match decoded with
  | none => some [WriteAction.status 400, WriteAction.textBody "Invalid JSON"]
  | some payload =>
    match schemaResult payload.SchemaID with
    | Except.error e =>
      some [WriteAction.status 500,
        WriteAction.textBody ("Failed to obtain schema immutable traits: " ++ e)]
    | Except.ok immutableTraits =>
      match checkImmutability immutableTraits payload.OldTraits payload.NewTraits with
      | none => none
      | some vs =>
        let response : WebhookResponse := { Messages := vs.map formatViolation }
        if response.Messages.length > 0 then
          some [WriteAction.status 409, WriteAction.jsonBody response,
            WriteAction.status 200]
        else
          some [WriteAction.status 200]

/-- The status code the HTTP client observes: Go's `ResponseWriter` honours
only the first `WriteHeader` call and ignores (with a logged warning) any
later one. -/
def effectiveStatus : List WriteAction → Option Nat
  | [] => none
  | WriteAction.status c :: _ => some c
  | _ :: rest => effectiveStatus rest

example : checkImmutability ["email"] [("email", Val.str "a")] [("email", Val.str "b")]
    = some ["email"] := rfl

example : checkImmutability ["email"] [("email", Val.str "a")] [("email", Val.str "a")]
    = some [] := rfl

example : checkImmutability ["a"] [("a", Val.obj [])] [("a", Val.obj [])] = none := rfl

example : checkImmutability ["a"] [("a", Val.str "x")] [("a", Val.null)] = some [] := rfl

example : fetchSchemaImmutableTraits
    [("email", [(annotationKey, Val.bool true)]),
     ("username", [(annotationKey, Val.bool false)])] = some ["email"] := rfl

example : fetchSchemaImmutableTraits
    [("a", [(annotationKey, Val.str "yes")])] = none := rfl

example : webhookHandler none (fun _ => Except.ok []) =
    some [WriteAction.status 400, WriteAction.textBody "Invalid JSON"] := rfl

example :
    webhookHandler
      (some { SchemaID := "s", OldTraits := [("email", Val.str "a")],
              NewTraits := [("email", Val.str "b")] })
      (fun _ => Except.ok ["email"]) =
    some [WriteAction.status 409,
      WriteAction.jsonBody { Messages := [formatViolation "email"] },
      WriteAction.status 200] := rfl

/-! Section: Characterisation of the checking loop -/

/-- Whatever iteration order the trait loop uses, a successful (panic-free)
run collects exactly the traits whose loop condition holds, in order. -/
theorem check_eq_filter {imm : List String} {o n : List (String × Val)}
    {vs : List String} (h : checkImmutability imm o n = some vs) :
    vs = imm.filter (fun t => traitViolates o n t == some true) := by
  induction imm generalizing vs with
  | nil =>
    simp only [checkImmutability, Option.some.injEq] at h
    simp [← h]
  | cons t rest ih =>
    simp only [checkImmutability] at h
    cases htv : traitViolates o n t <;> rw [htv] at h
    · cases hrest : checkImmutability rest o n <;> rw [hrest] at h <;> simp at h
    next b =>
      cases hrest : checkImmutability rest o n <;> rw [hrest] at h
      · cases b <;> simp at h
      next ws =>
        cases b <;> simp only [Option.some.injEq] at h <;> subst h
        · rw [List.filter_cons_of_neg (by simp [htv])]
          exact ih hrest
        · rw [List.filter_cons_of_pos (by simp [htv])]
          rw [ih hrest]

/-- Membership in a successful violation list, unfolded. -/
theorem check_mem_iff {imm : List String} {o n : List (String × Val)}
    {vs : List String} (h : checkImmutability imm o n = some vs) (a : String) :
    a ∈ vs ↔ a ∈ imm ∧ traitViolates o n a = some true := by
  rw [check_eq_filter h]
  simp [List.mem_filter]

/-- The loop condition holds exactly when the proposed value is non-nil and
the Go comparison with the prior value succeeds and reports inequality. -/
theorem traitViolates_eq_true_iff (o n : List (String × Val)) (t : String) :
    traitViolates o n t = some true ↔
      goIndex n t ≠ Val.null ∧ goEq (goIndex n t) (goIndex o t) = some false := by
  unfold traitViolates
  cases hnv : goIndex n t <;> simp only []
  case null => simp
  all_goals
    cases hq : goEq (goIndex n t) (goIndex o t) <;> rw [hnv] at hq <;> rw [hq] <;> simp

/-! Section: Claims about the Immutability Checker -/

/-- C1 counterexample: with `immutable = {"a"}`, `oldValues = {"a": "x"}`
and `newValues = {"a": null}`, `newValues` contains `"a"` and its value
(JSON null) differs from the prior value `"x"` under deep structural
equality, yet the checker records zero violations for `"a"` (the `!= nil`
guard skips explicit nulls), refuting the claimed "exactly one". -/
theorem c1_null_counterexample :
    lookupKey [("a", Val.null)] "a" = some Val.null ∧
    Val.null ≠ Val.str "x" ∧
    checkImmutability ["a"] [("a", Val.str "x")] [("a", Val.null)] = some [] ∧
    List.count "a" ([] : List String) = 0 :=
  ⟨rfl, fun hcontra => Val.noConfusion hcontra, rfl, rfl⟩

/-- C1 (amended): for a duplicate-free immutable set containing `a`, a
panic-free check records exactly one violation for `a` iff the value of
`a` in `newValues` is non-nil (absent and explicit-null values are
skipped) and Go's interface comparison with the value in `oldValues`
succeeds and reports inequality (scalars are compared structurally; an
attribute absent from `oldValues` reads as nil, so any non-nil new value
for it differs). -/
theorem check_count_one_iff {imm : List String} {o n : List (String × Val)}
    {vs : List String} {a : String} (hnd : imm.Nodup) (ha : a ∈ imm)
    (h : checkImmutability imm o n = some vs) :
    List.count a vs = 1 ↔
      (goIndex n a ≠ Val.null ∧ goEq (goIndex n a) (goIndex o a) = some false) := by
  rw [← traitViolates_eq_true_iff, check_eq_filter h]
  constructor
  · intro h1
    have hmem : a ∈ List.filter (fun t => traitViolates o n t == some true) imm :=
      List.count_pos_iff.1 (by omega)
    simpa using (List.mem_filter.1 hmem).2
  · intro hp
    rw [List.count_filter (by simp [hp])]
    exact List.count_eq_one_of_mem hnd ha

/-- Witness for `check_count_one_iff` at `immutable = {"email"}`,
`oldValues = {"email": "a"}`, `newValues = {"email": "b"}`. -/
theorem check_count_one_iff_witness :
    List.count "email" ["email"] = 1 ↔
      (goIndex [("email", Val.str "b")] "email" ≠ Val.null ∧
       goEq (goIndex [("email", Val.str "b")] "email")
         (goIndex [("email", Val.str "a")] "email") = some false) :=
  @check_count_one_iff ["email"] [("email", Val.str "a")] [("email", Val.str "b")]
    ["email"] "email" (by simp) (by simp) rfl

/-- C4: the code evaluated at the failing input `immutable = {"a"}`,
`oldValues = {"a": {"k": "v"}}`, `newValues = {"a": {"k": "v"}}`: the two
values are deeply equal objects of distinct identity, so the claim (and
the spec) demand no violation and no fault, but the Go comparison of two
`map[string]interface{}` interface values panics, aborting the whole
handler before any response is written. -/
theorem equal_objects_check_panics :
    checkImmutability ["a"] [("a", Val.obj [("k", Val.str "v")])]
      [("a", Val.obj [("k", Val.str "v")])] = none ∧
    webhookHandler
      (some { SchemaID := "s",
              OldTraits := [("a", Val.obj [("k", Val.str "v")])],
              NewTraits := [("a", Val.obj [("k", Val.str "v")])] })
      (fun _ => Except.ok ["a"]) = none :=
  ⟨rfl, rfl⟩

/-- C5: an attribute whose key is absent from `newValues` is never
flagged, whatever `oldValues` holds: its one-valued map read is the nil
interface, so the `!= nil` guard skips it. -/
theorem absent_new_value_no_violation {imm : List String}
    {o n : List (String × Val)} {vs : List String} {a : String}
    (habs : lookupKey n a = none)
    (h : checkImmutability imm o n = some vs) : a ∉ vs := by
  intro hmem
  have h2 := ((check_mem_iff h a).1 hmem).2
  rw [traitViolates_eq_true_iff] at h2
  exact h2.1 (by simp [goIndex, habs])

/-- Witness for `absent_new_value_no_violation` at `immutable = {"email"}`,
`oldValues = {"email": "a"}`, `newValues = {"username": "u"}`. -/
theorem absent_new_value_no_violation_witness :
    "email" ∉ ([] : List String) :=
  @absent_new_value_no_violation ["email"] [("email", Val.str "a")]
    [("username", Val.str "u")] [] "email" (by simp [lookupKey]) rfl

/-- C8: the embedded checker is a pure function of its three inputs, so
two calls on identical inputs return identical violation lists (the Go
loop reads nothing but its arguments and writes nothing shared). -/
theorem check_deterministic (imm imm' : List String)
    (o o' n n' : List (String × Val)) :
    imm = imm' → o = o' → n = n' →
    checkImmutability imm o n = checkImmutability imm' o' n' := by
  intro h1 h2 h3
  rw [h1, h2, h3]

/-- Witness for `check_deterministic` on a concrete repeated call. -/
theorem check_deterministic_witness :
    checkImmutability ["email"] [("email", Val.str "a")] [("email", Val.str "b")] =
    checkImmutability ["email"] [("email", Val.str "a")] [("email", Val.str "b")] :=
  check_deterministic ["email"] ["email"] [("email", Val.str "a")]
    [("email", Val.str "a")] [("email", Val.str "b")] [("email", Val.str "b")]
    rfl rfl rfl

/-- C9: an attribute that `newValues` maps explicitly to JSON null is
never flagged, even when `oldValues` holds a non-null value: the decoded
null is the nil interface, so the `!= nil` guard skips it exactly as if
the key were absent. -/
theorem null_new_value_no_violation {imm : List String}
    {o n : List (String × Val)} {vs : List String} {a : String}
    (hnull : lookupKey n a = some Val.null)
    (h : checkImmutability imm o n = some vs) : a ∉ vs := by
  intro hmem
  have h2 := ((check_mem_iff h a).1 hmem).2
  rw [traitViolates_eq_true_iff] at h2
  exact h2.1 (by simp [goIndex, hnull])

/-- Witness for `null_new_value_no_violation` at `immutable = {"email"}`,
`oldValues = {"email": "a"}`, `newValues = {"email": null}`. -/
theorem null_new_value_no_violation_witness :
    "email" ∉ ([] : List String) :=
  @null_new_value_no_violation ["email"] [("email", Val.str "a")]
    [("email", Val.null)] [] "email" (by simp [lookupKey]) rfl

/-! Section: Claims about the schema fetch -/

/-- A panic-free schema scan collects exactly the traits whose annotation
test passes, in iteration order. -/
theorem fetch_eq_filter {traits : List (String × List (String × Val))}
    {ts : List String} (h : fetchSchemaImmutableTraits traits = some ts) :
    ts = (traits.filter (fun p => traitImmutable p.2 == some true)).map Prod.fst := by
  induction traits generalizing ts with
  | nil =>
    simp only [fetchSchemaImmutableTraits, Option.some.injEq] at h
    simp [← h]
  | cons p rest ih =>
    obtain ⟨t, props⟩ := p
    simp only [fetchSchemaImmutableTraits] at h
    cases hti : traitImmutable props <;> rw [hti] at h
    · cases hrest : fetchSchemaImmutableTraits rest <;> rw [hrest] at h <;> simp at h
    next b =>
      cases hrest : fetchSchemaImmutableTraits rest <;> rw [hrest] at h
      · cases b <;> simp at h
      next ws =>
        cases b <;> simp only [Option.some.injEq] at h <;> subst h
        · rw [List.filter_cons_of_neg (by simp [hti])]
          exact ih hrest
        · rw [List.filter_cons_of_pos (by simp [hti])]
          simp [ih hrest]

/-- The annotation test passes exactly on a boolean-true annotation
value. -/
theorem traitImmutable_eq_true_iff (props : List (String × Val)) :
    traitImmutable props = some true ↔
      lookupKey props annotationKey = some (Val.bool true) := by
  unfold traitImmutable
  cases h : lookupKey props annotationKey
  · simp
  next v => cases v <;> simp

/-- In an association list with duplicate-free keys (a Go map), a key
determines its value. -/
theorem assoc_eq_of_nodup_keys {β : Type} {l : List (String × β)}
    (hnd : (l.map Prod.fst).Nodup) {t : String} {a b : β}
    (ha : (t, a) ∈ l) (hb : (t, b) ∈ l) : a = b := by
  induction l with
  | nil => cases ha
  | cons p rest ih =>
    simp only [List.map_cons, List.nodup_cons] at hnd
    rcases List.mem_cons.1 ha with ha1 | ha1 <;> rcases List.mem_cons.1 hb with hb1 | hb1
    · have h2 : (t, a) = (t, b) := ha1.trans hb1.symm
      injection h2 with h3 h4
    · exact absurd (by rw [← ha1]; exact List.mem_map.2 ⟨(t, b), hb1, rfl⟩) hnd.1
    · exact absurd (by rw [← hb1]; exact List.mem_map.2 ⟨(t, a), ha1, rfl⟩) hnd.1
    · exact ih hnd.2 ha1 hb1

/-- C2 counterexample: a registry response of the expected shape in which
the `"zolfa.dev/kratos-readonly"` annotation of trait `"a"` is the string
`"yes"` rather than a boolean.  The claim says the fetch succeeds and
excludes `"a"` without any fault; the code's unchecked type assertion
`immutable.(bool)` panics instead, so the fetch produces no result. -/
theorem c2_nonbool_counterexample :
    fetchSchemaImmutableTraits [("a", [(annotationKey, Val.str "yes")])] = none := rfl

/-- C2 (amended): on a panic-free run over a schema with duplicate-free
trait names, the returned set holds exactly the traits whose annotation
is the boolean `true`; traits with the annotation missing or set to
boolean `false` are excluded without error, while any non-boolean
annotation value (string, number, null, array, object) makes the whole
fetch fault instead of being excluded. -/
theorem fetch_mem_iff {traits : List (String × List (String × Val))}
    {ts : List String} (hnd : (traits.map Prod.fst).Nodup)
    (h : fetchSchemaImmutableTraits traits = some ts)
    {t : String} {props : List (String × Val)} (hmem : (t, props) ∈ traits) :
    t ∈ ts ↔ lookupKey props annotationKey = some (Val.bool true) := by
  rw [fetch_eq_filter h, ← traitImmutable_eq_true_iff]
  constructor
  · intro ht
    obtain ⟨p, hp, hpt⟩ := List.mem_map.1 ht
    have hpf := List.mem_filter.1 hp
    have hp2 : (t, p.2) ∈ traits := by
      have := hpf.1
      rwa [← Prod.mk.eta (p := p), hpt] at this
    have hps : p.2 = props := assoc_eq_of_nodup_keys hnd hp2 hmem
    have := hpf.2
    rw [hps] at this
    simpa using this
  · intro hti
    exact List.mem_map.2 ⟨(t, props), List.mem_filter.2 ⟨hmem, by simp [hti]⟩, rfl⟩

/-- Witness for `fetch_mem_iff` on the schema used by the repository's
test: `email` annotated `true`, `username` annotated `false`. -/
theorem fetch_mem_iff_witness :
    "email" ∈ (["email"] : List String) ↔
      lookupKey [(annotationKey, Val.bool true)] annotationKey =
        some (Val.bool true) :=
  @fetch_mem_iff
    [("email", [(annotationKey, Val.bool true)]),
     ("username", [(annotationKey, Val.bool false)])]
    ["email"] (by simp) rfl "email" [(annotationKey, Val.bool true)]
    (List.mem_cons_self _ _)

/-! Section: Claims about the request handler -/

/-- C3: on a decoded request whose schema lookup succeeds and whose check
yields at least one violation, the handler writes the 409 status and the
formatted rejection payload — and, because the conflict branch does not
return, then attempts a second, 200 status header write; the client still
observes status 409, the first header written. -/
theorem conflict_double_write {payload : WebhookRequest}
    {sr : String → Except String (List String)} {imm vs : List String}
    (hs : sr payload.SchemaID = Except.ok imm)
    (hc : checkImmutability imm payload.OldTraits payload.NewTraits = some vs)
    (hvs : vs ≠ []) :
    webhookHandler (some payload) sr =
      some [WriteAction.status 409,
        WriteAction.jsonBody { Messages := vs.map formatViolation },
        WriteAction.status 200] ∧
    effectiveStatus [WriteAction.status 409,
        WriteAction.jsonBody { Messages := vs.map formatViolation },
        WriteAction.status 200] = some 409 := by
  refine ⟨?_, rfl⟩
  simp only [webhookHandler]
  rw [hs]
  dsimp only
  rw [hc]
  simp [List.length_pos, hvs]

/-- Witness for `conflict_double_write` on the repository test's conflict
scenario: `immutable = {"email"}`, old email `"a"`, proposed email `"b"`. -/
theorem conflict_double_write_witness :
    webhookHandler
      (some { SchemaID := "s", OldTraits := [("email", Val.str "a")],
              NewTraits := [("email", Val.str "b")] })
      (fun _ => Except.ok ["email"]) =
      some [WriteAction.status 409,
        WriteAction.jsonBody { Messages := ["email"].map formatViolation },
        WriteAction.status 200] ∧
    effectiveStatus [WriteAction.status 409,
        WriteAction.jsonBody { Messages := ["email"].map formatViolation },
        WriteAction.status 200] = some 409 :=
  conflict_double_write rfl rfl (by simp)

/-- C6: with an empty immutable set the violation loop collects nothing
and the handler's only write is the 200 status, whatever the change-set
holds. -/
theorem empty_immutable_always_ok :
    (∀ o n : List (String × Val), checkImmutability [] o n = some []) ∧
    (∀ payload : WebhookRequest,
      webhookHandler (some payload) (fun _ => Except.ok []) =
        some [WriteAction.status 200] ∧
      effectiveStatus [WriteAction.status 200] = some 200) :=
  ⟨fun _ _ => rfl, fun _ => ⟨rfl, rfl⟩⟩

/-- C7: a request whose body fails to decode gets status 400 with body
`"Invalid JSON"` and a response that is independent of the schema-lookup
collaborator (no lookup is observable); a decoded request whose lookup
fails gets status 500 with the failure reason embedded in the body; in
both cases nothing further is written. -/
theorem error_responses :
    (∀ f g : String → Except String (List String),
      webhookHandler none f = webhookHandler none g) ∧
    (∀ f : String → Except String (List String),
      webhookHandler none f =
        some [WriteAction.status 400, WriteAction.textBody "Invalid JSON"]) ∧
    (∀ (payload : WebhookRequest) (f : String → Except String (List String))
        (e : String), f payload.SchemaID = Except.error e →
      webhookHandler (some payload) f =
        some [WriteAction.status 500,
          WriteAction.textBody ("Failed to obtain schema immutable traits: " ++ e)]) := by
  refine ⟨fun f g => rfl, fun f => rfl, fun payload f e hf => ?_⟩
  simp only [webhookHandler]
  rw [hf]

/-- Witness for `error_responses` at a concrete failing lookup. -/
theorem error_responses_witness :
    webhookHandler
      (some { SchemaID := "s", OldTraits := [], NewTraits := [] })
      (fun _ => Except.error "boom") =
      some [WriteAction.status 500,
        WriteAction.textBody
          ("Failed to obtain schema immutable traits: " ++ "boom")] :=
  error_responses.2.2 { SchemaID := "s", OldTraits := [], NewTraits := [] }
    (fun _ => Except.error "boom") "boom" rfl

/-! Section: Claims about the conflict payload -/

/-- String append is left-cancellative. -/
theorem string_append_left_cancel {s t u : String} (h : s ++ t = s ++ u) :
    t = u := by
  have hd : s.data ++ t.data = s.data ++ u.data := by
    have h1 := congrArg String.data h
    simpa [String.data_append] using h1
  cases t
  cases u
  simp_all

/-- C10: in a panic-free run over a duplicate-free immutable set, every
message container of the conflict payload points at `"#/traits/" ++ a`
for some immutable attribute `a`, carries exactly the one nested message
with id 1377 and type `"conflict"`, and no attribute contributes more
than one container. -/
theorem conflict_payload_invariant {imm : List String}
    {o n : List (String × Val)} {vs : List String} (hnd : imm.Nodup)
    (h : checkImmutability imm o n = some vs) :
    (∀ m ∈ vs.map formatViolation,
      (∃ a ∈ imm, m.InstancePtr = "#/traits/" ++ a) ∧
      m.Messages =
        [{ ID := 1377, Text := "Element is read-only.", type := "conflict" }]) ∧
    (∀ a : String,
      (vs.map formatViolation).countP
        (fun m => m.InstancePtr == "#/traits/" ++ a) ≤ 1) := by
  have hsub : vs ⊆ imm := by
    rw [check_eq_filter h]
    exact (List.filter_sublist imm).subset
  have hvnd : vs.Nodup := by
    rw [check_eq_filter h]
    exact hnd.filter _
  constructor
  · intro m hm
    obtain ⟨t, ht, rfl⟩ := List.mem_map.1 hm
    exact ⟨⟨t, hsub ht, rfl⟩, rfl⟩
  · intro a
    rw [List.countP_map]
    have hcnt : vs.countP
        ((fun m => m.InstancePtr == "#/traits/" ++ a) ∘ formatViolation) =
        vs.count a := by
      rw [List.count_eq_countP]
      apply List.countP_congr
      intro x hx
      simp only [Function.comp_apply, formatViolation, beq_iff_eq]
      exact ⟨fun hxa => string_append_left_cancel hxa, fun hxa => by rw [hxa]⟩
    rw [hcnt]
    exact List.nodup_iff_count_le_one.1 hvnd a

/-- Witness for `conflict_payload_invariant` on the single violation
`email`. -/
theorem conflict_payload_invariant_witness :
    (formatViolation "email").Messages =
      [{ ID := 1377, Text := "Element is read-only.", type := "conflict" }] :=
  ((@conflict_payload_invariant ["email"] [("email", Val.str "a")]
    [("email", Val.str "b")] ["email"]
    (by simp) rfl).1 (formatViolation "email")
    (List.mem_map_of_mem formatViolation (List.mem_cons_self _ _))).2
